import Mathlib

/-!
Shallow embedding of the retrieval pipeline of `src/book-search/app.py`
(functions `generate_embedding`, `rerank_results`, `search_embeddings`,
`load_books`), together with the cosine-similarity computation performed by
`sklearn.metrics.pairwise.cosine_similarity`.

Modelling conventions:
* Float values are modelled as real numbers.
* The two external web services are modelled as oracle functions:
  `EmbedApi` for the embedding endpoint (`generate_embedding` returns `None`
  exactly when the request raises a caught `RequestException`, modelled as
  `none`), and `RerankApi` for the reranking endpoint (`none` models a caught
  `RequestException`; `some ranked` models a parsed JSON body whose
  `results` field is `ranked`, each item carrying `index` and
  `relevance_score`; the index field of the JSON response is a list position,
  modelled as a natural number).
* The file system is modelled by the `Option Corpus` argument standing for
  the outcome of `load_books`: `none` when `books.json` does not exist
  (the Python function returns `None`), `some data` when it parses.
* A Python dict is modelled as an association list in insertion order.
* An uncaught exception (iterating over `None`, or a reranking index out of
  range) makes the modelled function return `none` for its result component.
* `search_embeddings` additionally returns the list of provider calls it
  issued, in order, so that statements about which services are contacted
  can be made.
* In `rerank_results` the Python code mutates the candidate dicts shared
  between `results` and the `reranked` list comprehension; with duplicate
  indices in the response every occurrence ends up carrying the score of the
  last response item with that index.  `lastScore` reproduces exactly that.
* `sklearn` cosine similarity normalises each row, replacing a zero norm by
  1 before dividing (so a zero vector is mapped to similarity 0, never NaN);
  `safeNorm` reproduces that.  The sklearn call raises on a dimension
  mismatch between query and stored vector, a case §3/§7 of the design
  document declare an unchecked, undefined error condition; the model is
  total there and the dimension-sensitive theorems carry an equal-length
  hypothesis.
-/

namespace BookSearch

/-- An embedding vector, as stored in `books.json` / returned by the API. -/
abbrev Embedding := List ℝ

/-- One book record of the corpus, as built by
`get_latest_books_with_embeddings` and persisted in `books.json`. -/
structure Book where
  title : String
  description : String
  publication_date : String
  thumbnail_url : String
  embedding : Option Embedding

/-- The corpus: the JSON object mapping author name to book list, in
insertion order (Python dict iteration order). -/
abbrev Corpus := List (String × List Book)

/-- Dot product of two vectors (entries beyond the shorter one ignored). -/
def dotProduct (v w : List ℝ) : ℝ := (List.zipWith (· * ·) v w).sum

/-- Euclidean norm of a vector. -/
noncomputable def l2norm (v : List ℝ) : ℝ := Real.sqrt (dotProduct v v)

/-- The norm used by sklearn normalisation: a zero norm is replaced by 1
(this is what `sklearn.preprocessing.normalize` does to avoid dividing by
zero). -/
noncomputable def safeNorm (v : List ℝ) : ℝ :=
  if l2norm v = 0 then 1 else l2norm v

/-- `sklearn.metrics.pairwise.cosine_similarity` on two single-row inputs:
the dot product of the two normalised rows. -/
noncomputable def cosine_similarity (q p : List ℝ) : ℝ :=
  dotProduct q p / (safeNorm q * safeNorm p)

/-- One scored candidate, as appended to `matches` in `search_embeddings`. -/
structure CandidateMatch where
  author : String
  title : String
  description : String
  publication_date : String
  thumbnail_url : String
  similarity : ℝ

instance : Inhabited CandidateMatch := ⟨⟨"", "", "", "", "", 0⟩⟩

/-- One item of the reranking response body: `{"index": ..,
"relevance_score": ..}`. -/
structure RankItem where
  index : Nat
  relevance_score : ℝ

/-- One element of the list returned by `search_embeddings`: the candidate
dict, which carries a `relevance_score` key exactly when the success path of
`rerank_results` attached one. -/
structure SearchResult where
  entry : CandidateMatch
  relevance_score : Option ℝ

/-- A call made to an external provider endpoint. -/
inductive ProviderCall where
  | embedCall (text : String) (task : String)
  | rerankCall (query : String) (documents : List String) (top_n : Nat)
  deriving DecidableEq

/-- The embedding endpoint, abstracted: the value of
`generate_embedding(text, "retrieval.query")`. -/
abbrev EmbedApi := String → Option Embedding

/-- The reranking endpoint, abstracted: query, document list and `top_n`
give either a parsed `results` list or a request failure. -/
abbrev RerankApi := String → List String → Nat → Option (List RankItem)

/-- The final relevance score carried by candidate `i` after the mutation
loop of `rerank_results`: the score of the last response item whose index
is `i` (every occurrence of the dict aliases the same mutated object). -/
def lastScore (ranked : List RankItem) (i : Nat) : Option ℝ :=
  ((ranked.filter fun it => it.index == i).getLast?).map (·.relevance_score)

/-- `rerank_results(query, results, top_n)` of `app.py`, returning the
result (`none` for an uncaught `IndexError`) and the provider calls made.
On request failure it falls back to `results[:top_n]`, attaching no score;
on success it returns one entry per response item, the candidate at the
item's index carrying the score assigned by the mutation loop. -/
def rerank_results (api : RerankApi) (query : String)
    (results : List CandidateMatch) (top_n : Nat) :
    Option (List SearchResult) × List ProviderCall :=
  let documents := results.map (·.description)
  let call := ProviderCall.rerankCall query documents top_n
  match api query documents top_n with
  | none => (some ((results.take top_n).map fun c => ⟨c, none⟩), [call])
  | some ranked =>
      if ranked.all fun it => it.index < results.length then
        (some (ranked.map fun it =>
          ⟨results.getD it.index default, lastScore ranked it.index⟩), [call])
      else (none, [call])

/-- The body of the scoring loop of `search_embeddings` for one book:
`if book_embedding:` skips a missing embedding and (list truthiness) an
empty one; otherwise the candidate dict is built with the sklearn cosine
similarity. -/
noncomputable def scoreBook (q : Embedding) (author : String) (book : Book) :
    Option CandidateMatch :=
  match book.embedding with
  | none => none
  | some e =>
      if e.isEmpty then none
      else some
        { author := author
          title := book.title
          description := book.description
          publication_date := book.publication_date
          thumbnail_url := book.thumbnail_url
          similarity := cosine_similarity q e }

/-- The full scored set: the double loop over `data.items()` and each book
list, in iteration order. -/
noncomputable def scoreCorpus (q : Embedding) (data : Corpus) :
    List CandidateMatch :=
  data.flatMap fun p => p.2.filterMap (scoreBook q p.1)

/-- The comparison used by
`sorted(matches, key=lambda x: x["similarity"], reverse=True)`:
a stable sort that puts `a` before `b` when `b.similarity ≤ a.similarity`. -/
noncomputable def descBySim (a b : CandidateMatch) : Bool :=
  decide (b.similarity ≤ a.similarity)

/-- The candidate list handed to reranking: the scored set sorted by
descending similarity (stable) and truncated to `initial_matches`. -/
noncomputable def rankCandidates (q : Embedding) (data : Corpus)
    (initial_matches : Nat) : List CandidateMatch :=
  ((scoreCorpus q data).mergeSort descBySim).take initial_matches

/-- `search_embeddings(search_text, filename, top_n, initial_matches)` of
`app.py`: result (`none` models the uncaught `AttributeError` raised by
iterating over a `None` corpus) together with the provider calls issued. -/
noncomputable def search_embeddings (books_file : Option Corpus)
    (embed : EmbedApi) (api : RerankApi) (search_text : String)
    (top_n : Nat) (initial_matches : Nat) :
    Option (List SearchResult) × List ProviderCall :=
  let ecall := ProviderCall.embedCall search_text "retrieval.query"
  match embed search_text with
  | none => (some [], [ecall])
  | some q =>
      match books_file with
      | none => (none, [ecall])
      | some data =>
          let candidates := rankCandidates q data initial_matches
          let r := rerank_results api search_text candidates top_n
          (r.1, ecall :: r.2)

/-- The number of book records of a corpus. -/
def numBooks (data : Corpus) : Nat := (data.map fun p => p.2.length).sum

/-- The provider contract of the design document, §6: the reranking
response pairs distinct valid candidate positions with scores and returns
at most `top_n` of them. -/
def ValidResponse (documents : List String) (top_n : Nat)
    (ranked : List RankItem) : Prop :=
  ranked.length ≤ top_n ∧ (ranked.map (·.index)).Nodup ∧
    ∀ it ∈ ranked, it.index < documents.length

/-- A reranking endpoint every successful answer of which honours the
provider contract. -/
def ValidApi (api : RerankApi) : Prop :=
  ∀ q documents n ranked, api q documents n = some ranked →
    ValidResponse documents n ranked

/-! ### Structural helper lemmas -/

theorem scoreCorpus_eq_nil (q : Embedding) (data : Corpus)
    (h : ∀ a bs, (a, bs) ∈ data → ∀ b ∈ bs, scoreBook q a b = none) :
    scoreCorpus q data = [] := by
  simp only [scoreCorpus, List.flatMap_eq_nil_iff, List.filterMap_eq_nil_iff]
  intro p hp b hb
  exact h p.1 p.2 hp b hb

/-! ### Claim C3 -/

/-- C3: when the query-embedding call fails, `search_embeddings` returns the
empty list and the only provider call issued is the query-embedding call —
in particular no similarity scoring happens and the reranking endpoint is
never contacted. -/
theorem C3_embedding_failure_empty (books_file : Option Corpus)
    (embed : EmbedApi) (api : RerankApi) (text : String)
    (top_n initial_matches : Nat) (h : embed text = none) :
    search_embeddings books_file embed api text top_n initial_matches =
      (some [], [ProviderCall.embedCall text "retrieval.query"]) := by
  simp [search_embeddings, h]

/-- Witness for C3 at a concrete input. -/
theorem C3_embedding_failure_empty_witness :
    ((fun _ => none : EmbedApi) "dystopia" = none) ∧
    search_embeddings (some []) (fun _ => none) (fun _ _ _ => none)
        "dystopia" 5 10 =
      (some [], [ProviderCall.embedCall "dystopia" "retrieval.query"]) :=
  ⟨rfl, C3_embedding_failure_empty (some []) _ _ _ 5 10 rfl⟩

/-! ### Claim C10 -/

/-- C10 counterexample: with the corpus file missing, `search_embeddings`
can still return a (empty) result sequence — it does so whenever the
query-embedding call fails, because the `None` check on the embedding comes
before the corpus is ever touched. -/
theorem C10_counterexample :
    (search_embeddings none (fun _ => none) (fun _ _ _ => none)
        "q" 5 10).1 = some [] := by
  simp [search_embeddings]

/-- C10 (amended): if the corpus file does not exist and the query-embedding
call succeeds, `search_embeddings` returns no result sequence — iterating
the missing corpus raises — so the existence of the corpus file is an
unstated precondition of every run whose embedding call succeeds. -/
theorem C10_missing_file_raises (embed : EmbedApi) (api : RerankApi)
    (text : String) (q : Embedding) (top_n initial_matches : Nat)
    (h : embed text = some q) :
    (search_embeddings none embed api text top_n initial_matches).1 =
      none := by
  simp [search_embeddings, h]

/-- Witness for the amended C10 at a concrete input. -/
theorem C10_missing_file_raises_witness :
    ((fun _ => some [1] : EmbedApi) "q" = some [1]) ∧
    (search_embeddings none (fun _ => some [1]) (fun _ _ _ => none)
        "q" 5 10).1 = none :=
  ⟨rfl, C10_missing_file_raises _ _ "q" [1] 5 10 rfl⟩

/-! ### Claim C4 -/

/-- C4 counterexample: on the empty corpus, with a successful embedding
call, the pipeline returns the empty result but nevertheless contacts the
reranking provider: `rerank_results` is called unconditionally and issues
its request with an empty document list. -/
theorem C4_counterexample :
    (search_embeddings (some []) (fun _ => some [1]) (fun _ _ _ => none)
        "q" 5 10).1 = some [] ∧
    ProviderCall.rerankCall "q" [] 5 ∈
      (search_embeddings (some []) (fun _ => some [1]) (fun _ _ _ => none)
        "q" 5 10).2 := by
  constructor <;>
    simp [search_embeddings, rankCandidates, scoreCorpus, rerank_results]

/-- C4 (amended): on a corpus with no scorable record, and a successful
query-embedding call, `search_embeddings` returns the empty result; the
provider calls issued are the query-embedding call and one reranking call
carrying an empty document list. -/
theorem C4_empty_corpus (data : Corpus) (embed : EmbedApi) (api : RerankApi)
    (text : String) (q : Embedding) (top_n initial_matches : Nat)
    (hq : embed text = some q)
    (hempty : ∀ a bs, (a, bs) ∈ data → ∀ b ∈ bs, scoreBook q a b = none)
    (hapi : ValidApi api) :
    (search_embeddings (some data) embed api text top_n initial_matches).1 =
      some [] ∧
    (search_embeddings (some data) embed api text top_n initial_matches).2 =
      [ProviderCall.embedCall text "retrieval.query",
        ProviderCall.rerankCall text [] top_n] := by
  have hs : scoreCorpus q data = [] := scoreCorpus_eq_nil q data hempty
  have hr : rankCandidates q data initial_matches = [] := by
    simp [rankCandidates, hs]
  cases hh : api text [] top_n with
  | none => simp [search_embeddings, hq, hr, rerank_results, hh]
  | some ranked =>
      have hnil : ranked = [] := by
        rcases ranked with _ | ⟨it, rest⟩
        · rfl
        · have := (hapi text [] top_n _ hh).2.2 it (by simp)
          simp at this
      subst hnil
      simp [search_embeddings, hq, hr, rerank_results, hh]

/-- Witness for the amended C4 at a concrete input. -/
theorem C4_empty_corpus_witness :
    ((fun _ => some [1] : EmbedApi) "q" = some [1]) ∧
    (∀ a bs, (a, bs) ∈ ([] : Corpus) → ∀ b ∈ bs, scoreBook [1] a b = none) ∧
    ValidApi (fun _ _ _ => none) ∧
    ((search_embeddings (some []) (fun _ => some [1]) (fun _ _ _ => none)
        "q" 5 10).1 = some [] ∧
      (search_embeddings (some []) (fun _ => some [1]) (fun _ _ _ => none)
        "q" 5 10).2 =
        [ProviderCall.embedCall "q" "retrieval.query",
          ProviderCall.rerankCall "q" [] 5]) :=
  ⟨rfl, (by simp), (fun q d n r h => by cases h),
    (C4_empty_corpus [] _ _ "q" [1] 5 10 rfl (by simp)
      (fun q d n r h => by cases h))⟩

/-- Unpacking a successful `scoreBook`: the book carries a non-null,
non-empty embedding and the candidate is built from its fields, scored with
sklearn cosine similarity. -/
theorem scoreBook_eq_some {q : Embedding} {a : String} {b : Book}
    {c : CandidateMatch} (h : scoreBook q a b = some c) :
    ∃ e, b.embedding = some e ∧ e ≠ [] ∧
      c = ⟨a, b.title, b.description, b.publication_date, b.thumbnail_url,
        cosine_similarity q e⟩ := by
  cases hb : b.embedding with
  | none => simp [scoreBook, hb] at h
  | some e =>
      by_cases he : e.isEmpty
      · simp [scoreBook, hb, he] at h
      · refine ⟨e, rfl, (by simpa using he), ?_⟩
        simp only [scoreBook, hb] at h
        rw [if_neg he] at h
        exact (Option.some.inj h).symm

/-- Membership in the scored set comes from an author entry and a book of
the corpus whose scoring succeeded. -/
theorem mem_scoreCorpus {q : Embedding} {data : Corpus}
    {c : CandidateMatch} (h : c ∈ scoreCorpus q data) :
    ∃ a bs b, (a, bs) ∈ data ∧ b ∈ bs ∧ scoreBook q a b = some c := by
  simp only [scoreCorpus, List.mem_flatMap, List.mem_filterMap] at h
  obtain ⟨⟨a, bs⟩, hp, b, hb, hs⟩ := h
  exact ⟨a, bs, b, hp, hb, hs⟩

/-- Membership in the reranking candidate window implies membership in the
scored set. -/
theorem mem_of_mem_rankCandidates {q : Embedding} {data : Corpus}
    {initial_matches : Nat} {c : CandidateMatch}
    (h : c ∈ rankCandidates q data initial_matches) :
    c ∈ scoreCorpus q data :=
  List.mem_mergeSort.mp (List.mem_of_mem_take h)

/-- Every entry of a list returned by `rerank_results` (on either the
success or the fallback path) is one of the candidates passed in. -/
theorem rerank_results_entry_mem {api : RerankApi} {query : String}
    {results : List CandidateMatch} {top_n : Nat} {rs : List SearchResult}
    (h : (rerank_results api query results top_n).1 = some rs) :
    ∀ r ∈ rs, r.entry ∈ results := by
  intro r hr
  cases hh : api query (results.map (·.description)) top_n with
  | none =>
      simp only [rerank_results, hh] at h
      rw [← Option.some.inj h] at hr
      obtain ⟨c, hc, hrc⟩ := List.mem_map.mp hr
      rw [← hrc]
      exact List.mem_of_mem_take hc
  | some ranked =>
      simp only [rerank_results, hh] at h
      by_cases hall : ranked.all fun it => it.index < results.length
      · rw [if_pos hall] at h
        rw [← Option.some.inj h] at hr
        obtain ⟨it, hit, hr_eq⟩ := List.mem_map.mp hr
        have hlt : it.index < results.length := by
          have := List.all_eq_true.mp hall it hit
          simpa using this
        have hgd : results.getD it.index default = results[it.index] := by
          simp [List.getD_eq_getElem?_getD, List.getElem?_eq_getElem hlt]
        rw [← hr_eq]
        simp only [hgd]
        exact List.getElem_mem hlt
      · rw [if_neg hall] at h
        cases h

/-! ### Claim C5 -/

/-- C5: on both the reranking-success and the fallback path, every entry of
a result list returned by `search_embeddings` originates from a corpus book
carrying a non-null (and non-empty) embedding; a record with a null
embedding can never appear. -/
theorem C5_null_embedding_never_returned (data : Corpus) (embed : EmbedApi)
    (api : RerankApi) (text : String) (top_n initial_matches : Nat)
    (rs : List SearchResult)
    (h : (search_embeddings (some data) embed api text top_n
        initial_matches).1 = some rs) :
    ∀ r ∈ rs, ∃ q a bs b e, embed text = some q ∧ (a, bs) ∈ data ∧
      b ∈ bs ∧ b.embedding = some e ∧ e ≠ [] ∧
      r.entry = ⟨a, b.title, b.description, b.publication_date,
        b.thumbnail_url, cosine_similarity q e⟩ := by
  intro r hr
  cases hq : embed text with
  | none =>
      simp only [search_embeddings, hq] at h
      rw [← Option.some.inj h] at hr
      cases hr
  | some q =>
      simp only [search_embeddings, hq] at h
      have hmem := rerank_results_entry_mem h r hr
      have hsc := mem_of_mem_rankCandidates hmem
      obtain ⟨a, bs, b, hab, hb, hsb⟩ := mem_scoreCorpus hsc
      obtain ⟨e, he, hne, hc⟩ := scoreBook_eq_some hsb
      exact ⟨q, a, bs, b, e, rfl, hab, hb, he, hne, hc⟩

/-- Witness for C5 at a concrete input. -/
theorem C5_null_embedding_never_returned_witness :
    ((search_embeddings (some [("A", [⟨"T", "D", "P", "U", some [1]⟩])])
        (fun _ => some [1]) (fun _ _ _ => none) "q" 5 10).1 =
      some [⟨⟨"A", "T", "D", "P", "U", cosine_similarity [1] [1]⟩, none⟩]) ∧
    ∀ r ∈ [(⟨⟨"A", "T", "D", "P", "U", cosine_similarity [1] [1]⟩, none⟩ :
        SearchResult)],
      ∃ q a bs b e,
        (fun _ => some [1] : EmbedApi) "q" = some q ∧
        (a, bs) ∈ [("A", [(⟨"T", "D", "P", "U", some [1]⟩ : Book)])] ∧
        b ∈ bs ∧ b.embedding = some e ∧ e ≠ [] ∧
        r.entry = ⟨a, b.title, b.description, b.publication_date,
          b.thumbnail_url, cosine_similarity q e⟩ :=
  ⟨(by simp [search_embeddings, rankCandidates, scoreCorpus, scoreBook,
      rerank_results]),
    C5_null_embedding_never_returned [("A", [⟨"T", "D", "P", "U", some [1]⟩])]
      (fun _ => some [1]) (fun _ _ _ => none) "q" 5 10
      [⟨⟨"A", "T", "D", "P", "U", cosine_similarity [1] [1]⟩, none⟩]
      (by simp [search_embeddings, rankCandidates, scoreCorpus, scoreBook,
        rerank_results])⟩

/-- The sort comparison is transitive. -/
theorem descBySim_trans (a b c : CandidateMatch) (hab : descBySim a b)
    (hbc : descBySim b c) : descBySim a c := by
  simp only [descBySim, decide_eq_true_eq] at *
  exact le_trans hbc hab

/-- The sort comparison is total. -/
theorem descBySim_total (a b : CandidateMatch) :
    descBySim a b || descBySim b a := by
  simp only [descBySim, Bool.or_eq_true, decide_eq_true_eq]
  exact le_total b.similarity a.similarity

/-! ### Claim C6 -/

/-- C6: the Similarity Engine produces the full scored set (every record of
the corpus whose scoring succeeds is in it), sorts it descending by
similarity with a stable sort — any subsequence already ordered by the
comparison, in particular any run of equal similarities in input order, is
kept as a subsequence — and truncates the sorted list to the first
`initial_matches` entries before handing it to reranking. -/
theorem C6_score_sort_truncate (q : Embedding) (data : Corpus)
    (initial_matches : Nat) :
    rankCandidates q data initial_matches =
      ((scoreCorpus q data).mergeSort descBySim).take initial_matches ∧
    ((scoreCorpus q data).mergeSort descBySim).Perm (scoreCorpus q data) ∧
    ((scoreCorpus q data).mergeSort descBySim).Pairwise
      (fun a b => b.similarity ≤ a.similarity) ∧
    (∀ a bs b c, (a, bs) ∈ data → b ∈ bs → scoreBook q a b = some c →
      c ∈ scoreCorpus q data) ∧
    (∀ ties : List CandidateMatch,
      ties.Pairwise (fun a b => descBySim a b = true) →
      ties.Sublist (scoreCorpus q data) →
      ties.Sublist ((scoreCorpus q data).mergeSort descBySim)) := by
  refine ⟨rfl, List.mergeSort_perm _ _, ?_, ?_, ?_⟩
  · have h := List.sorted_mergeSort descBySim_trans descBySim_total
      (scoreCorpus q data)
    exact h.imp (fun hab => by simpa [descBySim] using hab)
  · intro a bs b c hab hb hsb
    exact List.mem_flatMap.mpr ⟨(a, bs), hab, List.mem_filterMap.mpr
      ⟨b, hb, hsb⟩⟩
  · intro ties hp hs
    exact List.sublist_mergeSort descBySim_trans descBySim_total hp hs

/-- The scored set has at most one entry per book record. -/
theorem length_scoreCorpus_le (q : Embedding) (data : Corpus) :
    (scoreCorpus q data).length ≤ numBooks data := by
  induction data with
  | nil => simp [scoreCorpus, numBooks]
  | cons p rest ih =>
      simp only [scoreCorpus, numBooks, List.flatMap_cons, List.map_cons,
        List.length_append, List.sum_cons] at *
      exact Nat.add_le_add (List.length_filterMap_le _ _) ih

/-- The candidate window has at most one entry per book record. -/
theorem length_rankCandidates_le (q : Embedding) (data : Corpus)
    (initial_matches : Nat) :
    (rankCandidates q data initial_matches).length ≤ numBooks data := by
  have h1 : (rankCandidates q data initial_matches).length ≤
      ((scoreCorpus q data).mergeSort descBySim).length := by
    simp only [rankCandidates, List.length_take]
    exact min_le_right _ _
  rw [List.length_mergeSort] at h1
  exact le_trans h1 (length_scoreCorpus_le q data)

/-- A duplicate-free list of positions below `n` has at most `n` members. -/
theorem length_le_of_nodup_lt {l : List Nat} (n : Nat) (hnd : l.Nodup)
    (hlt : ∀ i ∈ l, i < n) : l.length ≤ n := by
  classical
  have h1 : l.toFinset.card = l.length := List.toFinset_card_of_nodup hnd
  have h2 : l.toFinset ⊆ Finset.range n := by
    intro i hi
    exact Finset.mem_range.mpr (hlt i (List.mem_toFinset.mp hi))
  have h3 := Finset.card_le_card h2
  rw [h1, Finset.card_range] at h3
  exact h3

/-! ### Claim C7 -/

/-- C7: with `top_n = 5` and a reranking endpoint honouring the provider
contract of §6, every result list returned by `search_embeddings` has
length at most 5 and at most the number of book records of the corpus, on
the reranking-success and the fallback path alike. -/
theorem C7_result_length_bounds (data : Corpus) (embed : EmbedApi)
    (api : RerankApi) (text : String) (initial_matches : Nat)
    (rs : List SearchResult) (hapi : ValidApi api)
    (h : (search_embeddings (some data) embed api text 5
        initial_matches).1 = some rs) :
    rs.length ≤ 5 ∧ rs.length ≤ numBooks data := by
  cases hq : embed text with
  | none =>
      simp only [search_embeddings, hq] at h
      rw [← Option.some.inj h]
      simp
  | some q =>
      simp only [search_embeddings, hq] at h
      have hnb := length_rankCandidates_le q data initial_matches
      cases hh : api text ((rankCandidates q data initial_matches).map
          (·.description)) 5 with
      | none =>
          simp only [rerank_results, hh] at h
          rw [← Option.some.inj h]
          simp only [List.length_map, List.length_take]
          exact ⟨min_le_left _ _, le_trans (min_le_right _ _) hnb⟩
      | some ranked =>
          obtain ⟨hlen, hnd, hidx⟩ := hapi _ _ _ _ hh
          have hidx' : ∀ it ∈ ranked,
              it.index < (rankCandidates q data initial_matches).length := by
            intro it hit
            have := hidx it hit
            simpa [List.length_map] using this
          have hall : ranked.all
              (fun it => it.index <
                (rankCandidates q data initial_matches).length) = true := by
            rw [List.all_eq_true]
            intro it hit
            simpa using hidx' it hit
          simp only [rerank_results, hh] at h
          rw [if_pos hall] at h
          rw [← Option.some.inj h]
          rw [List.length_map]
          refine ⟨hlen, ?_⟩
          have hmap : ∀ i ∈ ranked.map (·.index),
              i < (rankCandidates q data initial_matches).length := by
            intro i hi
            obtain ⟨it, hit, rfl⟩ := List.mem_map.mp hi
            exact hidx' it hit
        -- the response indices are distinct positions of the candidate list
          have hle := length_le_of_nodup_lt
            (rankCandidates q data initial_matches).length hnd hmap
          rw [List.length_map] at hle
          exact le_trans hle hnb

/-- Witness for C7 at a concrete input. -/
theorem C7_result_length_bounds_witness :
    ValidApi (fun _ _ _ => none) ∧
    ((search_embeddings (some [("A", [⟨"T", "D", "P", "U", some [1]⟩])])
        (fun _ => some [1]) (fun _ _ _ => none) "q" 5 10).1 =
      some [⟨⟨"A", "T", "D", "P", "U", cosine_similarity [1] [1]⟩, none⟩]) ∧
    ([(⟨⟨"A", "T", "D", "P", "U", cosine_similarity [1] [1]⟩, none⟩ :
        SearchResult)].length ≤ 5 ∧
      [(⟨⟨"A", "T", "D", "P", "U", cosine_similarity [1] [1]⟩, none⟩ :
        SearchResult)].length ≤
        numBooks [("A", [⟨"T", "D", "P", "U", some [1]⟩])]) :=
  ⟨(fun q d n r h => by cases h),
    (by simp [search_embeddings, rankCandidates, scoreCorpus, scoreBook,
      rerank_results]),
    C7_result_length_bounds [("A", [⟨"T", "D", "P", "U", some [1]⟩])]
      (fun _ => some [1]) (fun _ _ _ => none) "q" 10
      [⟨⟨"A", "T", "D", "P", "U", cosine_similarity [1] [1]⟩, none⟩]
      (fun q d n r h => by cases h)
      (by simp [search_embeddings, rankCandidates, scoreCorpus, scoreBook,
        rerank_results])⟩

/-- A successfully scored book contributes its candidate to the scored
set. -/
theorem scoreBook_mem_scoreCorpus {q : Embedding} {data : Corpus}
    {a : String} {bs : List Book} {b : Book} {c : CandidateMatch}
    (hab : (a, bs) ∈ data) (hb : b ∈ bs) (hsb : scoreBook q a b = some c) :
    c ∈ scoreCorpus q data :=
  List.mem_flatMap.mpr ⟨(a, bs), hab, List.mem_filterMap.mpr ⟨b, hb, hsb⟩⟩

/-! ### Claim C2 -/

/-- C2: when the query embedding succeeds and the reranking request fails,
`search_embeddings` returns exactly the first `top_n` entries of the
similarity-sorted candidate window, none of them carrying a relevance
score; and (for the positive `top_n` and `initial_matches` the retrieval
entry point uses, 5 and 10) the result is non-empty whenever the corpus
holds at least one scorable record. -/
theorem C2_rerank_fallback (data : Corpus) (embed : EmbedApi)
    (api : RerankApi) (text : String) (q : Embedding)
    (top_n initial_matches : Nat) (hq : embed text = some q)
    (hfail : api text ((rankCandidates q data initial_matches).map
        (·.description)) top_n = none) :
    (search_embeddings (some data) embed api text top_n initial_matches).1 =
      some (((rankCandidates q data initial_matches).take top_n).map
        fun c => ⟨c, none⟩) ∧
    ((∃ a bs b c, (a, bs) ∈ data ∧ b ∈ bs ∧ scoreBook q a b = some c) →
      0 < top_n → 0 < initial_matches →
      ((rankCandidates q data initial_matches).take top_n).map
        (fun c => (⟨c, none⟩ : SearchResult)) ≠ []) := by
  constructor
  · simp only [search_embeddings, hq, rerank_results, hfail]
  · rintro ⟨a, bs, b, c, hab, hb, hsb⟩ htop him
    have hmem := scoreBook_mem_scoreCorpus hab hb hsb
    have hpos : 0 < (scoreCorpus q data).length :=
      List.length_pos.mpr (List.ne_nil_of_mem hmem)
    have hlen : 0 <
        (((rankCandidates q data initial_matches).take top_n).map
          (fun c => (⟨c, none⟩ : SearchResult))).length := by
      simp only [List.length_map, List.length_take, rankCandidates,
        List.length_mergeSort]
      omega
    exact List.ne_nil_of_length_pos hlen

/-- Witness for C2 at a concrete input. -/
theorem C2_rerank_fallback_witness :
    ((fun _ => some [1] : EmbedApi) "q" = some [1]) ∧
    ((fun _ _ _ => none : RerankApi) "q"
      ((rankCandidates [1] [("A", [⟨"T", "D", "P", "U", some [1]⟩])] 10).map
        (·.description)) 5 = none) ∧
    ((search_embeddings (some [("A", [⟨"T", "D", "P", "U", some [1]⟩])])
        (fun _ => some [1]) (fun _ _ _ => none) "q" 5 10).1 =
      some (((rankCandidates [1]
          [("A", [⟨"T", "D", "P", "U", some [1]⟩])] 10).take 5).map
        fun c => ⟨c, none⟩) ∧
      ((∃ a bs b c, (a, bs) ∈ [("A", [(⟨"T", "D", "P", "U", some [1]⟩ :
          Book)])] ∧ b ∈ bs ∧ scoreBook [1] a b = some c) →
        0 < 5 → 0 < 10 →
        ((rankCandidates [1]
            [("A", [⟨"T", "D", "P", "U", some [1]⟩])] 10).take 5).map
          (fun c => (⟨c, none⟩ : SearchResult)) ≠ [])) :=
  ⟨rfl, rfl,
    C2_rerank_fallback [("A", [⟨"T", "D", "P", "U", some [1]⟩])]
      (fun _ => some [1]) (fun _ _ _ => none) "q" [1] 5 10 rfl rfl⟩

/-! ### Claim C1 -/

/-- With duplicate-free response indices, the filter the mutation loop
amounts to keeps exactly the matching response item. -/
theorem filter_index_eq_of_nodup {ranked : List RankItem} {it : RankItem}
    (hnd : (ranked.map (·.index)).Nodup) (hit : it ∈ ranked) :
    ranked.filter (fun x => x.index == it.index) = [it] := by
  induction ranked with
  | nil => cases hit
  | cons a rest ih =>
      rw [List.map_cons, List.nodup_cons] at hnd
      rcases List.mem_cons.mp hit with rfl | hmem
      · rw [List.filter_cons, if_pos (by simp)]
        have hrest : rest.filter (fun x => x.index == it.index) = [] := by
          rw [List.filter_eq_nil_iff]
          intro x hx hEq
          rw [beq_iff_eq] at hEq
          exact hnd.1 (hEq ▸ List.mem_map.mpr ⟨x, hx, rfl⟩)
        rw [hrest]
      · have hne : ¬ ((a.index == it.index) = true) := by
          simp only [beq_iff_eq]
          intro hEq
          exact hnd.1 (hEq ▸ List.mem_map.mpr ⟨it, hmem, rfl⟩)
        rw [List.filter_cons, if_neg hne]
        exact ih hnd.2 hmem

/-- With duplicate-free response indices, every candidate ends up carrying
exactly the relevance score the provider paired with its index. -/
theorem lastScore_of_nodup {ranked : List RankItem} {it : RankItem}
    (hnd : (ranked.map (·.index)).Nodup) (hit : it ∈ ranked) :
    lastScore ranked it.index = some it.relevance_score := by
  unfold lastScore
  rw [filter_index_eq_of_nodup hnd hit]
  rfl

/-- C1: when the embedding and the reranking calls both succeed and the
response is a duplicate-free list of in-range indices, the pipeline
returns exactly the candidates re-ordered by the returned index list, each
carrying the relevance score the provider paired with it — one result
entry per response item, so the final order is the reranked order, not the
raw similarity order. -/
theorem C1_rerank_success_order (data : Corpus) (embed : EmbedApi)
    (api : RerankApi) (text : String) (q : Embedding)
    (top_n initial_matches : Nat) (ranked : List RankItem)
    (hq : embed text = some q)
    (hresp : api text ((rankCandidates q data initial_matches).map
        (·.description)) top_n = some ranked)
    (hnd : (ranked.map (·.index)).Nodup)
    (hidx : ∀ it ∈ ranked,
      it.index < (rankCandidates q data initial_matches).length) :
    (search_embeddings (some data) embed api text top_n initial_matches).1 =
      some (ranked.map fun it =>
        ⟨(rankCandidates q data initial_matches).getD it.index default,
          some it.relevance_score⟩) ∧
    (ranked.map fun it =>
      (⟨(rankCandidates q data initial_matches).getD it.index default,
        some it.relevance_score⟩ : SearchResult)).length = ranked.length := by
  have hall : ranked.all
      (fun it => it.index <
        (rankCandidates q data initial_matches).length) = true := by
    rw [List.all_eq_true]
    intro it hit
    simpa using hidx it hit
  refine ⟨?_, List.length_map _ _⟩
  simp only [search_embeddings, hq, rerank_results, hresp]
  rw [if_pos hall]
  dsimp only
  congr 1
  apply List.map_congr_left
  intro it hit
  rw [lastScore_of_nodup hnd hit]

/-- Witness for C1 at a concrete input: two scorable records, and a
reranking response that lists them in the reverse of the candidate order,
with scores 0.99 and 0.5. -/
theorem C1_rerank_success_order_witness :
    ((fun _ => some [1] : EmbedApi) "q" = some [1]) ∧
    ((fun _ _ _ => some [⟨1, 99 / 100⟩, ⟨0, 1 / 2⟩] : RerankApi) "q"
      ((rankCandidates [1] [("A", [⟨"T0", "D0", "P0", "U0", some [1]⟩,
          ⟨"T1", "D1", "P1", "U1", some [1]⟩])] 10).map (·.description)) 5 =
      some [⟨1, 99 / 100⟩, ⟨0, 1 / 2⟩]) ∧
    (([(⟨1, 99 / 100⟩ : RankItem), ⟨0, 1 / 2⟩].map (·.index)).Nodup) ∧
    (∀ it ∈ [(⟨1, 99 / 100⟩ : RankItem), ⟨0, 1 / 2⟩],
      it.index < (rankCandidates [1] [("A", [⟨"T0", "D0", "P0", "U0",
        some [1]⟩, ⟨"T1", "D1", "P1", "U1", some [1]⟩])] 10).length) ∧
    ((search_embeddings (some [("A", [⟨"T0", "D0", "P0", "U0", some [1]⟩,
        ⟨"T1", "D1", "P1", "U1", some [1]⟩])])
        (fun _ => some [1]) (fun _ _ _ => some [⟨1, 99 / 100⟩, ⟨0, 1 / 2⟩])
        "q" 5 10).1 =
      some ([(⟨1, 99 / 100⟩ : RankItem), ⟨0, 1 / 2⟩].map fun it =>
        ⟨(rankCandidates [1] [("A", [⟨"T0", "D0", "P0", "U0", some [1]⟩,
            ⟨"T1", "D1", "P1", "U1", some [1]⟩])] 10).getD it.index default,
          some it.relevance_score⟩) ∧
      ([(⟨1, 99 / 100⟩ : RankItem), ⟨0, 1 / 2⟩].map fun it =>
        (⟨(rankCandidates [1] [("A", [⟨"T0", "D0", "P0", "U0", some [1]⟩,
            ⟨"T1", "D1", "P1", "U1", some [1]⟩])] 10).getD it.index default,
          some it.relevance_score⟩ : SearchResult)).length =
        [(⟨1, 99 / 100⟩ : RankItem), ⟨0, 1 / 2⟩].length) := by
  have hnd :
      (([(⟨1, 99 / 100⟩ : RankItem), ⟨0, 1 / 2⟩]).map (·.index)).Nodup := by
    simp
  have hidx : ∀ it ∈ [(⟨1, 99 / 100⟩ : RankItem), ⟨0, 1 / 2⟩],
      it.index < (rankCandidates [1] [("A", [⟨"T0", "D0", "P0", "U0",
        some [1]⟩, ⟨"T1", "D1", "P1", "U1", some [1]⟩])] 10).length := by
    have hlen : (rankCandidates [1] [("A", [⟨"T0", "D0", "P0", "U0",
        some [1]⟩, ⟨"T1", "D1", "P1", "U1", some [1]⟩])] 10).length = 2 := by
      simp [rankCandidates, scoreCorpus, scoreBook]
    intro it hit
    rw [hlen]
    rcases List.mem_cons.mp hit with rfl | hit2
    · decide
    · rcases List.mem_cons.mp hit2 with rfl | hit3
      · decide
      · cases hit3
  exact ⟨rfl, rfl, hnd, hidx,
    C1_rerank_success_order
      [("A", [⟨"T0", "D0", "P0", "U0", some [1]⟩,
        ⟨"T1", "D1", "P1", "U1", some [1]⟩])]
      (fun _ => some [1]) (fun _ _ _ => some [⟨1, 99 / 100⟩, ⟨0, 1 / 2⟩])
      "q" [1] 5 10 [⟨1, 99 / 100⟩, ⟨0, 1 / 2⟩] rfl rfl hnd hidx⟩

/-! ### Numeric lemmas about the similarity computation -/

theorem dotProduct_nil_right (v : List ℝ) : dotProduct v [] = 0 := by
  cases v <;> rfl

theorem dotProduct_cons (a b : ℝ) (v w : List ℝ) :
    dotProduct (a :: v) (b :: w) = a * b + dotProduct v w := by
  simp [dotProduct]

theorem dot_self_nonneg (v : List ℝ) : 0 ≤ dotProduct v v := by
  induction v with
  | nil => simp [dotProduct]
  | cons a t ih =>
      rw [dotProduct_cons]
      exact add_nonneg (mul_self_nonneg a) ih

theorem dotProduct_comm (v w : List ℝ) : dotProduct v w = dotProduct w v := by
  induction v generalizing w with
  | nil => cases w <;> simp [dotProduct]
  | cons a t ih =>
      cases w with
      | nil => simp [dotProduct]
      | cons b u => rw [dotProduct_cons, dotProduct_cons, mul_comm, ih]

/-- Cauchy–Schwarz for the list dot product. -/
theorem dotProduct_sq_le (q p : List ℝ) :
    dotProduct q p ^ 2 ≤ dotProduct q q * dotProduct p p := by
  induction q generalizing p with
  | nil => simp [dotProduct]
  | cons a t ih =>
      cases p with
      | nil => simp [dotProduct_nil_right]
      | cons b u =>
          rw [dotProduct_cons, dotProduct_cons, dotProduct_cons]
          rcases eq_or_lt_of_le (dot_self_nonneg u) with hP0 | hPpos
          · have hD2 : dotProduct t u ^ 2 ≤ 0 := by
              have := ih u
              rw [← hP0] at this
              simpa using this
            have hD0 : dotProduct t u = 0 := by
              have := sq_nonneg (dotProduct t u)
              nlinarith
            rw [hD0, ← hP0]
            nlinarith [mul_nonneg (dot_self_nonneg t) (sq_nonneg b)]
          · nlinarith [ih u, dot_self_nonneg t,
              sq_nonneg (a * dotProduct u u - b * dotProduct t u),
              mul_nonneg (sub_nonneg.mpr (ih u)) (dot_self_nonneg u),
              mul_nonneg (sub_nonneg.mpr (ih u)) (sq_nonneg b), hPpos]

theorem eq_zero_of_dot_self_eq_zero {v : List ℝ}
    (h : dotProduct v v = 0) : ∀ x ∈ v, x = 0 := by
  induction v with
  | nil => intro x hx; cases hx
  | cons a t ih =>
      rw [dotProduct_cons] at h
      have ha : a * a = 0 ∧ dotProduct t t = 0 := by
        constructor <;> nlinarith [mul_self_nonneg a, dot_self_nonneg t]
      intro x hx
      rcases List.mem_cons.mp hx with rfl | hxt
      · exact mul_self_eq_zero.mp ha.1
      · exact ih ha.2 x hxt

theorem dotProduct_eq_zero_of_right_zero (q p : List ℝ)
    (h : ∀ x ∈ p, x = 0) : dotProduct q p = 0 := by
  induction p generalizing q with
  | nil => exact dotProduct_nil_right q
  | cons b u ih =>
      cases q with
      | nil => rfl
      | cons a t =>
          rw [dotProduct_cons, h b (List.mem_cons_self b u),
            ih t (fun x hx => h x (List.mem_cons_of_mem b hx))]
          ring

theorem l2norm_nonneg (v : List ℝ) : 0 ≤ l2norm v := Real.sqrt_nonneg _

theorem l2norm_eq_zero_iff (v : List ℝ) :
    l2norm v = 0 ↔ dotProduct v v = 0 := by
  rw [l2norm, Real.sqrt_eq_zero (dot_self_nonneg v)]

theorem abs_dotProduct_le (q p : List ℝ) :
    |dotProduct q p| ≤ l2norm q * l2norm p := by
  have h2 : Real.sqrt (dotProduct q p ^ 2) ≤
      Real.sqrt (dotProduct q q * dotProduct p p) :=
    Real.sqrt_le_sqrt (dotProduct_sq_le q p)
  rw [Real.sqrt_sq_eq_abs] at h2
  rw [l2norm, l2norm, ← Real.sqrt_mul (dot_self_nonneg q)]
  exact h2

/-! ### Claim C8 -/

/-- C8 counterexample: a record whose stored embedding has zero norm is not
excluded from the result set — sklearn maps the zero vector to similarity
0.0 and the record is returned like any other. -/
theorem C8_counterexample :
    l2norm [(0 : ℝ)] = 0 ∧
    (search_embeddings (some [("A", [⟨"T", "D", "P", "U", some [0]⟩])])
        (fun _ => some [1]) (fun _ _ _ => none) "q" 5 10).1 =
      some [⟨⟨"A", "T", "D", "P", "U", 0⟩, none⟩] := by
  constructor
  · simp [l2norm, dotProduct]
  · simp [search_embeddings, rankCandidates, scoreCorpus, scoreBook,
      rerank_results, cosine_similarity, dotProduct]

/-- C8 (amended): for vectors of non-zero norm the sklearn cosine
similarity always lies in the interval from -1 to 1; a zero-norm query or
passage vector is not a per-record failure and is not excluded — the
sklearn normalisation guard turns it into similarity 0 (never NaN), and
such a record is scored and ranked like any other. -/
theorem C8_similarity_range_zero_norm (q p : List ℝ) :
    (l2norm q ≠ 0 → l2norm p ≠ 0 →
      -1 ≤ cosine_similarity q p ∧ cosine_similarity q p ≤ 1) ∧
    (l2norm p = 0 → cosine_similarity q p = 0) ∧
    (l2norm q = 0 → cosine_similarity q p = 0) := by
  refine ⟨?_, ?_, ?_⟩
  · intro hq hp
    have hq2 : 0 < l2norm q := lt_of_le_of_ne (l2norm_nonneg q) (Ne.symm hq)
    have hp2 : 0 < l2norm p := lt_of_le_of_ne (l2norm_nonneg p) (Ne.symm hp)
    have hpos : 0 < l2norm q * l2norm p := mul_pos hq2 hp2
    have habs : |cosine_similarity q p| ≤ 1 := by
      rw [cosine_similarity, safeNorm, if_neg hq, safeNorm, if_neg hp,
        abs_div, abs_of_pos hpos, div_le_one hpos]
      exact abs_dotProduct_le q p
    exact abs_le.mp habs
  · intro hp
    have hz := eq_zero_of_dot_self_eq_zero ((l2norm_eq_zero_iff p).mp hp)
    rw [cosine_similarity, dotProduct_eq_zero_of_right_zero q p hz, zero_div]
  · intro hq
    have hz := eq_zero_of_dot_self_eq_zero ((l2norm_eq_zero_iff q).mp hq)
    rw [cosine_similarity, dotProduct_comm,
      dotProduct_eq_zero_of_right_zero p q hz, zero_div]

/-! ### Claim C9 -/

/-- C9: on unit vectors of equal dimension the similarity used by the
Similarity Engine is symmetric, and the self-similarity of a unit vector
is exactly 1. -/
theorem C9_similarity_symm_self (q p : List ℝ) (hlen : q.length = p.length)
    (hq : dotProduct q q = 1) (hp : dotProduct p p = 1) :
    cosine_similarity q p = cosine_similarity p q ∧
    cosine_similarity q q = 1 := by
  constructor
  · rw [cosine_similarity, cosine_similarity, dotProduct_comm, mul_comm]
  · simp [cosine_similarity, safeNorm, l2norm, hq]

/-- Witness for C9 at a concrete input. -/
theorem C9_similarity_symm_self_witness :
    ([(1 : ℝ), 0].length = [(0 : ℝ), 1].length) ∧
    (dotProduct [(1 : ℝ), 0] [1, 0] = 1) ∧
    (dotProduct [(0 : ℝ), 1] [0, 1] = 1) ∧
    (cosine_similarity [(1 : ℝ), 0] [0, 1] =
        cosine_similarity [0, 1] [1, 0] ∧
      cosine_similarity [(1 : ℝ), 0] [1, 0] = 1) := by
  have h1 : dotProduct [(1 : ℝ), 0] [1, 0] = 1 := by
    norm_num [dotProduct]
  have h2 : dotProduct [(0 : ℝ), 1] [0, 1] = 1 := by
    norm_num [dotProduct]
  exact ⟨rfl, h1, h2, C9_similarity_symm_self [1, 0] [0, 1] rfl h1 h2⟩

end BookSearch
